import Mathlib

/-!
Verification of the simulation-and-learning core of the SiriusSolus insulin
pump project, as implemented in `src/InsulinGlucoseModelSimple.py`.

Modelling conventions (a shallow embedding of the Python source):

* Python floats are modelled as real numbers; purely rational/structural
  pieces (the Welford statistic, the state bins, the penalty functions, the
  credit-attribution charge list) are stated polymorphically over a
  `LinearOrderedField` so they can also be executed over `ℚ` on concrete
  inputs.
* The float literal `1e-4` is modelled as the exact rational `1/10000`, and
  decimal literals such as `0.62` as the corresponding rationals.
* numpy arrays of length `T` (one slot per simulated minute) are modelled as
  total functions `ℕ → ℝ` together with the recorded horizon `T`; the
  Python/numpy integer-indexing semantics (negative indices wrap, indices at
  or past the horizon raise `IndexError`) is modelled separately by the
  `npIdx`-based accessors returning `Option`.
* `scipy.stats.gamma.pdf(x, a, scale = θ)` is
  `x ^ (a-1) * exp (-x/θ) / (θ ^ a * Γ a)` for `x ≥ 0` and `0` for `x < 0`.
* Python dictionaries with a missing-key default of `0` (`insulin_doses`
  read through `Pump.get_dose`, and the `defaultdict`-of-`defaultdict`
  q-table of fresh `Welford()` entries) are modelled as total functions with
  that default.
* In `Pump.train_dosing_scheme`, the canine-side readings that feed the
  q-table logic are abstracted as per-tick snapshot functions: `G i` / `R i`
  are the glucose level and glucose rate read by the penalties at tick `i`,
  and `key i d` is `get_key(d)` as recomputed in the canine state current at
  tick `i` — `key i i` is the key under which tick `i` selects its dose,
  while `key i d` for `d < i` is the key under which tick `i`'s
  `update_reward(d, ...)` call files its charge.  The two indices matter:
  `get_key(d)` is recomputed at every attribution tick, and its `iob(d)` /
  `fob(d)` components read `effective_insulin` / `effective_food[d + 300]`,
  which every intervening `dose_insulin` / `dose_food` call mutates, so the
  recomputed key of a past tick can drift away from its selection-time key.
  For any concrete run these snapshot readings form *some* such functions,
  so theorems quantified over them cover the actual run.  The q-table, dose
  bookkeeping, reward attribution and dose selection are modelled
  faithfully.
-/

/-- Weighted Welford accumulator, from the `@dataclass Welford` of
`InsulinGlucoseModelSimple.py` (fields `n`, `mean`, `M2`, all floats
initialised to `0.0`). -/
structure Welford (α : Type) where
  n : α
  mean : α
  M2 : α

/-- The zero-initialised `Welford()` value. -/
def initWelford {α : Type} [LinearOrderedField α] : Welford α := ⟨0, 0, 0⟩

/-- `Welford.update(value, weight)`: skips entirely when `weight < 1e-4`,
otherwise `n += weight; delta = value - mean; mean += (weight/n) * delta;
delta2 = value - mean; M2 += weight * delta * delta2` (the `n` in the mean
update is the already-incremented one). -/
def Welford.update {α : Type} [LinearOrderedField α] (w : Welford α) (value weight : α) :
    Welford α :=
  if weight < 1/10000 then w
  else
    ⟨w.n + weight,
     w.mean + (weight / (w.n + weight)) * (value - w.mean),
     w.M2 + weight * (value - w.mean) *
       (value - (w.mean + (weight / (w.n + weight)) * (value - w.mean)))⟩

/-- Folding a list of `(value, weight)` samples into a `Welford` accumulator
by repeated `update`. -/
def Welford.updates {α : Type} [LinearOrderedField α] (w : Welford α) (l : List (α × α)) :
    Welford α :=
  l.foldl (fun w2 p => w2.update p.1 p.2) w

/-- `Welford.variance`: `M2 / n if n > 0 else 0.0`. -/
def Welford.variance {α : Type} [LinearOrderedField α] (w : Welford α) : α :=
  if 0 < w.n then w.M2 / w.n else 0

/-- `Welford.ucb1(c)`: `float('inf')` when `n == 0`, otherwise
`mean + c * sqrt(abs(log(n) / n))`.  The value lives in `WithTop ℝ`, whose
`⊤` models the IEEE positive infinity returned by the zero-count branch
(in particular `inf > inf` is false, as in Python). -/
noncomputable def Welford.ucb1 (w : Welford ℝ) (c : ℝ) : WithTop ℝ :=
  if w.n = 0 then ⊤
  else ((w.mean + c * Real.sqrt |Real.log w.n / w.n| : ℝ) : WithTop ℝ)

/-- `bin_glucose` from the source: thresholds 60 / 80 / 130 / 200 / 300 / 400. -/
def bin_glucose {α : Type} [LinearOrderedField α] (g : α) : ℕ :=
  if g < 60 then 0 else if g < 80 then 1 else if g < 130 then 2
  else if g < 200 then 3 else if g < 300 then 4 else if g < 400 then 5 else 6

/-- `bin_glucose_rate` from the source: thresholds -3 / -1.5 / -0.5 / 0.5 / 1.5 / 3. -/
def bin_glucose_rate {α : Type} [LinearOrderedField α] (g : α) : ℕ :=
  if g < -3 then 0 else if g < -(3/2) then 1 else if g < -(1/2) then 2
  else if g < 1/2 then 3 else if g < 3/2 then 4 else if g < 3 then 5 else 6

/-- `bin_iob` from the source: thresholds 0.0025 / 0.005 / 0.0075 / 0.010 / 0.0175 / 0.0250. -/
def bin_iob {α : Type} [LinearOrderedField α] (i : α) : ℕ :=
  if i < 25/10000 then 0 else if i < 5/1000 then 1 else if i < 75/10000 then 2
  else if i < 1/100 then 3 else if i < 175/10000 then 4 else if i < 25/1000 then 5 else 6

/-- `bin_fob` from the source: thresholds 2.5 / 5.0 / 7.5 / 10.0 / 15.0 / 20.0. -/
def bin_fob {α : Type} [LinearOrderedField α] (i : α) : ℕ :=
  if i < 5/2 then 0 else if i < 5 then 1 else if i < 15/2 then 2
  else if i < 10 then 3 else if i < 15 then 4 else if i < 20 then 5 else 6

/-- `Pump.bgl_penalty`, as a function of the glucose reading used there:
`0` inside `90 <= g <= 130`, `0.05 * (90 - g)**3` below, `0.001 * (g - 130)**2`
above. -/
def bgl_penalty {α : Type} [LinearOrderedField α] (g : α) : α :=
  if 90 ≤ g ∧ g ≤ 130 then 0
  else if g < 90 then (5/100) * (90 - g) ^ 3
  else (1/1000) * (g - 130) ^ 2

/-- `Pump.bgl_rate_penalty`, as a function of the glucose-rate reading used
there: `3 * (r - 1)` when `abs(r) > 1`, else `0`.  (Note the body uses the
raw `r - 1`, not `abs(r) - 1`.) -/
def bgl_rate_penalty {α : Type} [LinearOrderedField α] (r : α) : α :=
  if 1 < |r| then 3 * (r - 1) else 0

/-- The combined `dose_penalty` of `Pump.adjust_table`:
`-1 * bgl_penalty(index) - bgl_rate_penalty(index)`, with the glucose and
glucose-rate series abstracted as functions `G`, `R` of the tick. -/
def dosePenalty {α : Type} [LinearOrderedField α] (G R : ℕ → α) (i : ℕ) : α :=
  -1 * bgl_penalty (G i) - bgl_rate_penalty (R i)

/-- `DOSE_RANGE = 1 * np.array([0.0, 0.05, 0.1, 0.25, 0.5, 1.0])`. -/
noncomputable def DOSE_RANGE : List ℝ := [0, 5/100, 1/10, 1/4, 1/2, 1]

/-- The `j`-th candidate dose of `DOSE_RANGE`. -/
noncomputable def doseVal (j : Fin 6) : ℝ := DOSE_RANGE.get ⟨j.1, j.2⟩

/-- The selection loop of `Pump.choose_dose`: start from the first element
and replace the running best whenever a later element scores strictly
higher (so the first maximiser of the score wins). -/
def argmaxFirst {γ β : Type} [LinearOrder β] (s : γ → β) (b : γ) (l : List γ) : γ :=
  l.foldl (fun best d => if s best < s d then d else best) b

/-- `Pump.choose_dose` restricted to the row `self.qtable[key]` it reads:
`dose_to_use = DOSE_RANGE[0]`, then for each `dose` in `DOSE_RANGE`, replace
`dose_to_use` when `qtable[key][dose].ucb1() > qtable[key][dose_to_use].ucb1()`
(`ucb1` called with its default `c = 1.0`). -/
noncomputable def choose_dose (row : ℝ → Welford ℝ) : ℝ :=
  argmaxFirst (fun d => (row d).ucb1 1) (0 : ℝ) DOSE_RANGE

/-- `scipy.stats.gamma.pdf(x, a=a, scale=θ)`:
`x^(a-1) * exp(-x/θ) / (θ^a * Γ(a))` for `x ≥ 0`, and `0` for `x < 0`. -/
noncomputable def gammaPdf (x a θ : ℝ) : ℝ :=
  if x < 0 then 0 else x ^ (a - 1) * Real.exp (-x / θ) / (θ ^ a * Real.Gamma a)

/-- `gamma_kernel(t, onset, k, theta)` from the source: `0` before `onset`,
`gamma.pdf(t - onset, a=k, scale=theta)` from `onset` on. -/
noncomputable def gamma_kernel (t onset k θ : ℝ) : ℝ :=
  if t < onset then 0 else gammaPdf (t - onset) k θ

/-- `Canine.insulin_kernel(time)`:
`gamma.pdf(time, a=3, scale=105) + gamma.pdf(time, a=5, scale=120)`
(its `units` parameter is unused in the body). -/
noncomputable def insulin_kernel (time : ℝ) : ℝ :=
  gammaPdf time 3 105 + gammaPdf time 5 120

/-- `insulin_kernel` evaluated at an integer minute offset, as
`Pump.adjust_table` does with `index - dose_index`. -/
noncomputable def insulinKernelNat (m : ℕ) : ℝ := insulin_kernel m

/-- The state of a `Canine` object.  Arrays indexed by minute are total
functions `ℕ → ℝ`; `T` records `len(self.time)` for the indexing layer.
`insulin_doses` is read through `Pump.get_dose`, whose `KeyError` fallback
is `0`, so it is modelled as a total function defaulting to `0`.
(`insulin_contributions` and `food_doses` are written but never read by any
live code path and are omitted.) -/
structure Canine where
  T : ℕ
  step_size : ℝ
  BGL : ℕ → ℝ
  BGL_Rate : ℕ → ℝ
  constant_background_use_rate : ℝ
  kidney_clearance_rate : ℝ
  effective_insulin : ℕ → ℝ
  insulin_sensitivity : ℝ
  effective_food : ℕ → ℝ
  food_sensitivity : ℝ
  insulin_doses : ℕ → ℝ

/-- `Canine.__init__(BGL, step_size, time)`: all series zero except
`BGL[0] = BGL`; `constant_background_use_rate = 0`,
`kidney_clearance_rate = 2/20/1000`, `insulin_sensitivity = 0.62`,
`food_sensitivity = 8.0`. -/
noncomputable def initCanine (BGL0 : ℝ) (step_size : ℝ) (time : ℕ) : Canine where
  T := time
  step_size := step_size
  BGL := fun t => if t = 0 then BGL0 else 0
  BGL_Rate := fun _ => 0
  constant_background_use_rate := 0
  kidney_clearance_rate := 2/20/1000
  effective_insulin := fun _ => 0
  insulin_sensitivity := 62/100
  effective_food := fun _ => 0
  food_sensitivity := 8
  insulin_doses := fun _ => 0

/-- `Canine.update(index)`: a no-op at `index == 0`, otherwise writes
`BGL[index] = BGL[index-1] + effective_food[index-1]
  - step_size * BGL[index-1] * insulin_sensitivity * effective_insulin[index-1]
  - step_size * constant_background_use_rate
  - step_size * kidney_clearance_rate * max(0, BGL[index-1] - 180)`. -/
noncomputable def Canine.update (s : Canine) (index : ℕ) : Canine :=
  if index = 0 then s
  else
    let newVal : ℝ :=
      s.BGL (index - 1) + s.effective_food (index - 1)
        - s.step_size * s.BGL (index - 1) * s.insulin_sensitivity *
            s.effective_insulin (index - 1)
        - s.step_size * s.constant_background_use_rate
        - s.step_size * s.kidney_clearance_rate * max 0 (s.BGL (index - 1) - 180)
    { s with BGL := Function.update s.BGL index newVal }

/-- `Canine.dose_insulin(administration_time, units)`: adds
`units * (gamma_kernel(t, onset, 3, 105) + gamma_kernel(t, onset, 5, 120))`
pointwise into `effective_insulin` (an additive fold over the whole time
axis) and records `insulin_doses[administration_time] = units`
(a dictionary write, so a second dose at the same key overwrites the
recorded magnitude, while the effect series accumulates). -/
noncomputable def Canine.dose_insulin (s : Canine) (administration_time : ℕ)
    (units : ℝ) : Canine :=
  { s with
    effective_insulin := fun t =>
      s.effective_insulin t +
        units * (gamma_kernel t administration_time 3 105 +
                 gamma_kernel t administration_time 5 120)
    insulin_doses := Function.update s.insulin_doses administration_time units }

/-- `Canine.dose_food(administration_time, units)`: adds
`food_sensitivity * units * (gamma_kernel(t, onset, 4, 22) + gamma_kernel(t, onset, 7, 24))`
pointwise into `effective_food`. -/
noncomputable def Canine.dose_food (s : Canine) (administration_time : ℕ)
    (units : ℝ) : Canine :=
  { s with
    effective_food := fun t =>
      s.effective_food t +
        s.food_sensitivity * units * (gamma_kernel t administration_time 4 22 +
                                      gamma_kernel t administration_time 7 24) }

/-- `Canine.iob(t) = effective_insulin[t + 300]`, for in-range reads. -/
def Canine.iob (s : Canine) (t : ℕ) : ℝ := s.effective_insulin (t + 300)

/-- `Canine.fob(t) = effective_food[t + 300]`, for in-range reads. -/
def Canine.fob (s : Canine) (t : ℕ) : ℝ := s.effective_food (t + 300)

/-- The discretized state key of `Pump.get_key`. -/
abbrev StateKey := ℕ × ℕ × ℕ × ℕ

/-- `Pump.get_key(index) = (bin_glucose(BGL[index]), bin_glucose_rate(BGL_Rate[index]),
bin_iob(iob(index)), bin_fob(fob(index)))`. -/
noncomputable def get_key (s : Canine) (index : ℕ) : StateKey :=
  (bin_glucose (s.BGL index), bin_glucose_rate (s.BGL_Rate index),
   bin_iob (s.iob index), bin_fob (s.fob index))

/-- The mutating operations the program ever applies to a `Canine`
(`Pump.train_dosing_scheme` and `Canine.run` are compositions of these). -/
inductive CanineOp where
  | update (index : ℕ)
  | doseInsulin (t0 : ℕ) (units : ℝ)
  | doseFood (t0 : ℕ) (units : ℝ)

/-- Apply one `CanineOp`. -/
noncomputable def applyOp (s : Canine) : CanineOp → Canine
  | .update i => s.update i
  | .doseInsulin t0 u => s.dose_insulin t0 u
  | .doseFood t0 u => s.dose_food t0 u

/-- Apply a whole sequence of `CanineOp`s in order. -/
noncomputable def applyOps (s : Canine) (ops : List CanineOp) : Canine :=
  ops.foldl applyOp s

/-- `Canine.run` truncated at `n` iterations: `update(0); update(1); ...;
update(n-1)` (`run` itself uses `n = len(self.time)`). -/
noncomputable def runCanine (s : Canine) : ℕ → Canine
  | 0 => s
  | n + 1 => (runCanine s n).update n

/-- The `Canine` built by `main()`: `Canine(BGL=370, time=10000)` (with the
default `step_size = 1`). -/
noncomputable def benny : Canine := initCanine 370 1 10000

/-- The glucose series after simulating `benny` over its whole horizon with
no insulin and no food doses. -/
noncomputable def bennyBGL (t : ℕ) : ℝ := (runCanine benny 10000).BGL t

/-- The explicit recurrence satisfied by that scenario:
`g(0) = 370`, `g(t+1) = g(t) - 1/10000 * max(0, g(t) - 180)` (step size 1,
kidney clearance `2/20/1000 = 1/10000`, background use 0, no doses). -/
noncomputable def scenarioBGL : ℕ → ℝ
  | 0 => 370
  | t + 1 => scenarioBGL t - 1/10000 * max 0 (scenarioBGL t - 180)

/-- numpy integer indexing into a 1-D array of length `T`: indices in
`[0, T)` read directly, indices in `[-T, 0)` wrap to `T + i`, anything else
raises `IndexError` (modelled as `none`). -/
def npIdx (T : ℕ) (i : ℤ) : Option ℕ :=
  if 0 ≤ i ∧ i < (T : ℤ) then some i.toNat
  else if -(T : ℤ) ≤ i ∧ i < 0 then some (i + T).toNat
  else none

/-- Reading `self.BGL[i]` with full numpy index semantics. -/
noncomputable def Canine.readBGL (s : Canine) (i : ℤ) : Option ℝ :=
  (npIdx s.T i).map s.BGL

/-- `Canine.iob(t)` with full numpy index semantics: reads
`effective_insulin[t + 300]`. -/
noncomputable def Canine.iobIdx (s : Canine) (t : ℤ) : Option ℝ :=
  (npIdx s.T (t + 300)).map s.effective_insulin

/-- `Canine.fob(t)` with full numpy index semantics: reads
`effective_food[t + 300]`. -/
noncomputable def Canine.fobIdx (s : Canine) (t : ℤ) : Option ℝ :=
  (npIdx s.T (t + 300)).map s.effective_food

/-- `Canine.update(index)` with full numpy index semantics: a no-op at
`index == 0`; otherwise all reads are at `index - 1` and the write at
`index`, each resolved by `npIdx` (any failing access raises, modelled as
`none`). -/
noncomputable def Canine.updateIdx (s : Canine) (index : ℤ) : Option Canine :=
  if index = 0 then some s
  else
    match npIdx s.T (index - 1), npIdx s.T index with
    | some j, some k =>
        let newVal : ℝ :=
          s.BGL j + s.effective_food j
            - s.step_size * s.BGL j * s.insulin_sensitivity * s.effective_insulin j
            - s.step_size * s.constant_background_use_rate
            - s.step_size * s.kidney_clearance_rate * max 0 (s.BGL j - 180)
        some { s with BGL := Function.update s.BGL k newVal }
    | _, _ => none

/-- The `(dose_index, dose_weight)` pairs that pass the threshold test in
`Pump.adjust_table(index)`: `dose_index` ranges over
`range(0, index, dose_step_size)` (the multiples of the dose step below
`index`, in increasing order), `dose_weight = insulin_kernel(index - dose_index)`,
and only pairs with `dose_weight > 1e-4` are kept (the others receive no
update). -/
def chargeList {α : Type} [LinearOrderedField α] (κ : ℕ → α) (st i : ℕ) :
    List (ℕ × α) :=
  ((List.range i).filter (fun d => decide (st ∣ d))).filterMap
    (fun d => if 1/10000 < κ (i - d) then some (d, κ (i - d)) else none)

/-- The training-side state mutated by `Pump.train_dosing_scheme`: the
q-table (a `defaultdict` of `defaultdict` of fresh `Welford()` entries) and
the `insulin_doses` record as read by `Pump.get_dose` (default `0`). -/
structure TrainState where
  qtable : StateKey → ℝ → Welford ℝ
  doses : ℕ → ℝ

/-- `Pump.update_reward(index, weight, reward)`: look up the state key and
the recorded dose of tick `index` and apply
`qtable[key][dose].update(reward, weight)`. -/
noncomputable def update_reward (key : ℕ → StateKey) (s : TrainState) (index : ℕ)
    (weight reward : ℝ) : TrainState :=
  ⟨fun k d =>
     if k = key index ∧ d = s.doses index then (s.qtable k d).update reward weight
     else s.qtable k d,
   s.doses⟩

/-- `Pump.adjust_table(index)`: compute the combined penalty once, then fold
`update_reward(dose_index, dose_weight, dose_penalty)` over every qualifying
earlier dose tick. -/
noncomputable def adjust_table (κ : ℕ → ℝ) (key : ℕ → StateKey) (G R : ℕ → ℝ)
    (st : ℕ) (s : TrainState) (i : ℕ) : TrainState :=
  (chargeList κ st i).foldl
    (fun s2 dw => update_reward key s2 dw.1 dw.2 (dosePenalty G R i)) s

/-- Spec-side closed form (from §8 of the spec, for the refinement claim):
the total weight of a `(value, weight)` sample list. -/
def wsum {α : Type} [LinearOrderedField α] (l : List (α × α)) : α :=
  (l.map Prod.snd).sum

/-- Spec-side closed form: the weighted sum of values. -/
def wvsum {α : Type} [LinearOrderedField α] (l : List (α × α)) : α :=
  (l.map (fun p => p.2 * p.1)).sum

/-- Spec-side closed form: the weighted sum of squared values. -/
def wv2sum {α : Type} [LinearOrderedField α] (l : List (α × α)) : α :=
  (l.map (fun p => p.2 * p.1 ^ 2)).sum

/-- Spec-side closed form: the batch weighted mean `Σ wᵢvᵢ / Σ wᵢ`. -/
def weightedMean {α : Type} [LinearOrderedField α] (l : List (α × α)) : α :=
  wvsum l / wsum l

/-- Spec-side closed form: the batch weighted variance
`Σ wᵢ (vᵢ - mean)² / Σ wᵢ`. -/
def weightedVariance {α : Type} [LinearOrderedField α] (l : List (α × α)) : α :=
  (l.map (fun p => p.2 * (p.1 - weightedMean l) ^ 2)).sum / wsum l

/-! ### Basic lemmas about the simulator step and the index layer -/

lemma Canine.update_zero (s : Canine) : s.update 0 = s := by
  unfold Canine.update
  rfl

lemma Canine.update_BGL_of_ne (s : Canine) {index t : ℕ} (h : t ≠ index) :
    (s.update index).BGL t = s.BGL t := by
  unfold Canine.update
  split
  · rfl
  · exact Function.update_noteq h _ _

lemma Canine.update_effective_insulin (s : Canine) (index : ℕ) :
    (s.update index).effective_insulin = s.effective_insulin := by
  unfold Canine.update
  split <;> rfl

lemma Canine.update_effective_food (s : Canine) (index : ℕ) :
    (s.update index).effective_food = s.effective_food := by
  unfold Canine.update
  split <;> rfl

lemma Canine.update_BGL_Rate (s : Canine) (index : ℕ) :
    (s.update index).BGL_Rate = s.BGL_Rate := by
  unfold Canine.update
  split <;> rfl

lemma applyOp_BGL_Rate (s : Canine) (op : CanineOp) :
    (applyOp s op).BGL_Rate = s.BGL_Rate := by
  cases op with
  | update i => exact s.update_BGL_Rate i
  | doseInsulin t0 u => rfl
  | doseFood t0 u => rfl

lemma applyOps_BGL_Rate (ops : List CanineOp) :
    ∀ s : Canine, (applyOps s ops).BGL_Rate = s.BGL_Rate := by
  induction ops with
  | nil => intro s; rfl
  | cons op rest ih =>
      intro s
      have h1 : applyOps s (op :: rest) = applyOps (applyOp s op) rest := rfl
      rw [h1, ih, applyOp_BGL_Rate]

/-- C1: for every tick `t` with `0 < t`, `Canine.update` writes exactly the
balance equation
`glucose[t] = glucose[t-1] + active_food[t-1] - Δ·glucose[t-1]·insulin_sensitivity·active_insulin[t-1]
 - Δ·background_use_rate - Δ·kidney_clearance_rate·max(0, glucose[t-1]-180)`;
the step at tick `0` is the identity, so `glucose[0]` stays at the initial
condition supplied at construction; and the kidney term vanishes whenever
the previous glucose level is at most 180. -/
theorem C1_step_equation :
    (∀ (s : Canine) (t : ℕ), 0 < t →
      (s.update t).BGL t =
        s.BGL (t - 1) + s.effective_food (t - 1)
          - s.step_size * s.BGL (t - 1) * s.insulin_sensitivity *
              s.effective_insulin (t - 1)
          - s.step_size * s.constant_background_use_rate
          - s.step_size * s.kidney_clearance_rate * max 0 (s.BGL (t - 1) - 180))
    ∧ (∀ s : Canine, s.update 0 = s)
    ∧ (∀ (B stp : ℝ) (T : ℕ), ((initCanine B stp T).update 0).BGL 0 = B)
    ∧ (∀ (s : Canine) (t : ℕ), s.BGL t ≤ 180 →
        s.step_size * s.kidney_clearance_rate * max 0 (s.BGL t - 180) = 0) := by
  refine ⟨?_, Canine.update_zero, ?_, ?_⟩
  · intro s t ht
    unfold Canine.update
    rw [if_neg (Nat.pos_iff_ne_zero.mp ht)]
    exact Function.update_same _ _ _
  · intro B stp T
    rw [Canine.update_zero]
    simp [initCanine]
  · intro s t h
    have hmax : max 0 (s.BGL t - 180) = 0 := max_eq_left (by linarith)
    rw [hmax, mul_zero]

/-- Witness for C1 at a concrete state and tick. -/
theorem C1_step_equation_witness :
    ((initCanine 250 1 100).update 1).BGL 1 =
      (initCanine 250 1 100).BGL 0 + (initCanine 250 1 100).effective_food 0
        - (initCanine 250 1 100).step_size * (initCanine 250 1 100).BGL 0 *
            (initCanine 250 1 100).insulin_sensitivity *
            (initCanine 250 1 100).effective_insulin 0
        - (initCanine 250 1 100).step_size *
            (initCanine 250 1 100).constant_background_use_rate
        - (initCanine 250 1 100).step_size *
            (initCanine 250 1 100).kidney_clearance_rate *
            max 0 ((initCanine 250 1 100).BGL 0 - 180) :=
  C1_step_equation.1 (initCanine 250 1 100) 1 (by norm_num)

/-- C3 (counterexample evaluation): at a glucose rate of `-2` the code's
`bgl_rate_penalty` returns `3 * (-2 - 1) = -9`, a negative value, instead of
the claimed `3 * (|-2| - 1) = 3`; so the "penalty" is not nonnegative for
rates below `-1`. -/
theorem C3_rate_penalty_failing_input :
    bgl_rate_penalty (-2 : ℚ) = -9 ∧ bgl_rate_penalty (-2 : ℚ) < 0 ∧
      bgl_rate_penalty (-2 : ℚ) ≠ 3 * (|(-2 : ℚ)| - 1) := by
  have habs : |(-2 : ℚ)| = 2 := by
    rw [abs_neg]
    exact abs_of_nonneg (by norm_num)
  have hval : bgl_rate_penalty (-2 : ℚ) = -9 := by
    unfold bgl_rate_penalty
    rw [if_pos (by rw [habs]; norm_num)]
    norm_num
  refine ⟨hval, by rw [hval]; norm_num, by rw [hval, habs]; norm_num⟩

/-- C6: two insulin doses at the same administration time superpose: dosing
`(t0, a)` then `(t0, b)` yields exactly the same `effective_insulin` series
as the single dose `(t0, a + b)` (the effect accumulation is an additive
fold, linear in the dose magnitude). -/
theorem C6_superposition (s : Canine) (t0 : ℕ) (a b : ℝ) (t : ℕ) :
    ((s.dose_insulin t0 a).dose_insulin t0 b).effective_insulin t
      = (s.dose_insulin t0 (a + b)).effective_insulin t := by
  simp only [Canine.dose_insulin]
  ring

/-- C8: the glucose-rate series is initialised to all zeros and no canine
operation (step/update, dose_insulin, dose_food — the only mutations the
training loop and `Canine.run` ever perform) writes to it, so after any
operation sequence every entry is `0`; consequently the rate penalty is `0`
at every tick and the glucose-rate component of every `get_key` state key is
the middle bin `3`. -/
theorem C8_rate_series_always_zero (ops : List CanineOp) (B stp : ℝ) (T : ℕ) (t i : ℕ) :
    (applyOps (initCanine B stp T) ops).BGL_Rate t = 0
    ∧ bgl_rate_penalty ((applyOps (initCanine B stp T) ops).BGL_Rate i) = 0
    ∧ (get_key (applyOps (initCanine B stp T) ops) i).2.1 = 3 := by
  have h0 : ∀ u, (applyOps (initCanine B stp T) ops).BGL_Rate u = 0 := by
    intro u
    rw [applyOps_BGL_Rate ops (initCanine B stp T)]
    rfl
  refine ⟨h0 t, ?_, ?_⟩
  · rw [h0 i]
    norm_num [bgl_rate_penalty]
  · show bin_glucose_rate ((applyOps (initCanine B stp T) ops).BGL_Rate i) = 3
    rw [h0 i]
    norm_num [bin_glucose_rate]

/-! ### numpy index-layer lemmas (claim C9) -/

lemma npIdx_of_inRange {T : ℕ} {i : ℤ} (h0 : 0 ≤ i) (h1 : i < (T : ℤ)) :
    npIdx T i = some i.toNat := by
  unfold npIdx
  rw [if_pos ⟨h0, h1⟩]

lemma npIdx_of_neg {T : ℕ} {i : ℤ} (h0 : -(T : ℤ) ≤ i) (h1 : i < 0) :
    npIdx T i = some (i + T).toNat := by
  unfold npIdx
  rw [if_neg (by omega), if_pos ⟨h0, h1⟩]

lemma npIdx_none_of_ge {T : ℕ} {i : ℤ} (h : (T : ℤ) ≤ i) : npIdx T i = none := by
  unfold npIdx
  rw [if_neg (by omega), if_neg (by omega)]

/-- C9 (counterexample): an insulin-on-board query at the out-of-range time
`-300` (before time zero) is not rejected: Python's negative-index
wrap-around makes it read `effective_insulin[0]` and silently answer a
value (here `0` on a fresh simulator), contradicting the claim that every
access with a time index outside `[0, T)` fails. -/
theorem C9_counterexample_negative_time_answered :
    ((-300 : ℤ) < 0) ∧ (initCanine 250 1 10000).iobIdx (-300) = some 0 := by
  refine ⟨by norm_num, ?_⟩
  unfold Canine.iobIdx
  rw [show (-300 : ℤ) + 300 = 0 by norm_num]
  rw [npIdx_of_inRange (by norm_num) (by norm_num [initCanine])]
  rfl

/-- C9 (amended): accesses at or beyond the horizon are rejected with an
error — reading the glucose series at `i ≥ T`, reading insulin-on-board /
food-on-board at any `t` with `t + 300 ≥ T`, and stepping at `index ≥ T`
all fail — but accesses with negative indices in `[-T, 0)` are *not*
rejected: they are silently answered through Python's wrap-around (and a
negative-time on-board query whose shifted index lands in `[0, T)` silently
answers the wrapped value). -/
theorem C9_amended_horizon_rejected_negative_wraps :
    (∀ (s : Canine) (i : ℤ), (s.T : ℤ) ≤ i → s.readBGL i = none)
    ∧ (∀ (s : Canine) (t : ℤ), (s.T : ℤ) ≤ t + 300 →
        s.iobIdx t = none ∧ s.fobIdx t = none)
    ∧ (∀ (s : Canine) (i : ℤ), 0 < s.T → (s.T : ℤ) ≤ i → s.updateIdx i = none)
    ∧ (∀ (s : Canine) (i : ℤ), -(s.T : ℤ) ≤ i → i < 0 →
        s.readBGL i = some (s.BGL (i + s.T).toNat))
    ∧ (∀ (s : Canine) (t : ℤ), 0 ≤ t + 300 → t + 300 < (s.T : ℤ) →
        s.iobIdx t = some (s.effective_insulin (t + 300).toNat)) := by
  refine ⟨?_, ?_, ?_, ?_, ?_⟩
  · intro s i h
    unfold Canine.readBGL
    rw [npIdx_none_of_ge h]
    rfl
  · intro s t h
    constructor
    · unfold Canine.iobIdx
      rw [npIdx_none_of_ge h]
      rfl
    · unfold Canine.fobIdx
      rw [npIdx_none_of_ge h]
      rfl
  · intro s i hT h
    unfold Canine.updateIdx
    rw [if_neg (by omega)]
    rw [npIdx_none_of_ge h]
    cases npIdx s.T (i - 1) <;> rfl
  · intro s i h0 h1
    unfold Canine.readBGL
    rw [npIdx_of_neg h0 h1]
    rfl
  · intro s t h0 h1
    unfold Canine.iobIdx
    rw [npIdx_of_inRange h0 h1]
    rfl

/-- Witness for the amended C9 at concrete inputs. -/
theorem C9_amended_witness :
    (((initCanine 250 1 5).T : ℤ) ≤ 7) ∧ (initCanine 250 1 5).readBGL 7 = none :=
  ⟨by norm_num [initCanine],
   C9_amended_horizon_rejected_negative_wraps.1 (initCanine 250 1 5) 7
     (by norm_num [initCanine])⟩

/-! ### The zero-dose scenario (claim C10) -/

lemma Canine.update_BGL_pos (s : Canine) {index : ℕ} (h : index ≠ 0) :
    (s.update index).BGL index =
      s.BGL (index - 1) + s.effective_food (index - 1)
        - s.step_size * s.BGL (index - 1) * s.insulin_sensitivity *
            s.effective_insulin (index - 1)
        - s.step_size * s.constant_background_use_rate
        - s.step_size * s.kidney_clearance_rate * max 0 (s.BGL (index - 1) - 180) := by
  unfold Canine.update
  rw [if_neg h]
  exact Function.update_same _ _ _

lemma Canine.update_step_size (s : Canine) (i : ℕ) :
    (s.update i).step_size = s.step_size := by
  unfold Canine.update
  split <;> rfl

lemma Canine.update_background (s : Canine) (i : ℕ) :
    (s.update i).constant_background_use_rate = s.constant_background_use_rate := by
  unfold Canine.update
  split <;> rfl

lemma Canine.update_kidney (s : Canine) (i : ℕ) :
    (s.update i).kidney_clearance_rate = s.kidney_clearance_rate := by
  unfold Canine.update
  split <;> rfl

lemma Canine.update_sens (s : Canine) (i : ℕ) :
    (s.update i).insulin_sensitivity = s.insulin_sensitivity := by
  unfold Canine.update
  split <;> rfl

lemma runCanine_effective_food (s : Canine) :
    ∀ n, (runCanine s n).effective_food = s.effective_food
  | 0 => rfl
  | n + 1 => by
      rw [runCanine, Canine.update_effective_food, runCanine_effective_food s n]

lemma runCanine_effective_insulin (s : Canine) :
    ∀ n, (runCanine s n).effective_insulin = s.effective_insulin
  | 0 => rfl
  | n + 1 => by
      rw [runCanine, Canine.update_effective_insulin, runCanine_effective_insulin s n]

lemma runCanine_step_size (s : Canine) :
    ∀ n, (runCanine s n).step_size = s.step_size
  | 0 => rfl
  | n + 1 => by
      rw [runCanine, Canine.update_step_size, runCanine_step_size s n]

lemma runCanine_background (s : Canine) :
    ∀ n, (runCanine s n).constant_background_use_rate = s.constant_background_use_rate
  | 0 => rfl
  | n + 1 => by
      rw [runCanine, Canine.update_background, runCanine_background s n]

lemma runCanine_kidney (s : Canine) :
    ∀ n, (runCanine s n).kidney_clearance_rate = s.kidney_clearance_rate
  | 0 => rfl
  | n + 1 => by
      rw [runCanine, Canine.update_kidney, runCanine_kidney s n]

lemma runCanine_sens (s : Canine) :
    ∀ n, (runCanine s n).insulin_sensitivity = s.insulin_sensitivity
  | 0 => rfl
  | n + 1 => by
      rw [runCanine, Canine.update_sens, runCanine_sens s n]

lemma runCanine_BGL_stable (s : Canine) :
    ∀ (m t : ℕ), t < m → (runCanine s m).BGL t = (runCanine s (t + 1)).BGL t := by
  intro m
  induction m with
  | zero => intro t ht; exact absurd ht (Nat.not_lt_zero t)
  | succ m ih =>
      intro t ht
      rcases Nat.lt_succ_iff_lt_or_eq.mp ht with h | h
      · have hstep : (runCanine s (m + 1)).BGL t = (runCanine s m).BGL t := by
          rw [runCanine]
          exact Canine.update_BGL_of_ne _ (by omega)
        rw [hstep]
        exact ih t h
      · rw [h]

lemma benny_BGL_rec : ∀ t : ℕ, (runCanine benny (t + 1)).BGL t = scenarioBGL t := by
  intro t
  induction t with
  | zero =>
      rw [runCanine, runCanine, Canine.update_zero]
      show (370 : ℝ) = scenarioBGL 0
      rfl
  | succ t ih =>
      rw [runCanine]
      rw [Canine.update_BGL_pos _ (Nat.succ_ne_zero t)]
      simp only [Nat.succ_sub_one]
      rw [runCanine_effective_food, runCanine_effective_insulin, runCanine_step_size,
          runCanine_background, runCanine_kidney, runCanine_sens, ih]
      show scenarioBGL t + 0 - 1 * scenarioBGL t * (62/100) * 0 - 1 * 0
          - 1 * (2/20/1000) * max 0 (scenarioBGL t - 180) = scenarioBGL (t + 1)
      rw [show scenarioBGL (t + 1)
            = scenarioBGL t - 1/10000 * max 0 (scenarioBGL t - 180) from rfl]
      ring

lemma scenarioBGL_closed : ∀ t : ℕ, scenarioBGL t = 180 + 190 * (9999/10000 : ℝ) ^ t := by
  intro t
  induction t with
  | zero => norm_num [scenarioBGL]
  | succ t ih =>
      rw [show scenarioBGL (t + 1)
            = scenarioBGL t - 1/10000 * max 0 (scenarioBGL t - 180) from rfl, ih]
      rw [show (180 : ℝ) + 190 * (9999/10000 : ℝ) ^ t - 180
            = 190 * (9999/10000 : ℝ) ^ t by ring]
      rw [max_eq_right (by positivity)]
      ring

lemma bennyBGL_eq {t : ℕ} (ht : t < 10000) : bennyBGL t = scenarioBGL t := by
  unfold bennyBGL
  rw [runCanine_BGL_stable benny 10000 t ht, benny_BGL_rec t]

/-- C10: starting from glucose 370 with no insulin, no food and zero
background use, the simulated trajectory over the 10000-minute horizon is
non-increasing, stays at or above 180 (in particular above 180 the kidney
term strictly drains it, and it never goes negative), would stay constant
from any point at or below 180, and follows the closed form
`180 + 190 * (9999/10000)^t`, converging towards the constant 180. -/
theorem C10_zero_dose_scenario :
    (∀ t : ℕ, t + 1 < 10000 → bennyBGL (t + 1) ≤ bennyBGL t)
    ∧ (∀ t : ℕ, t < 10000 → 180 ≤ bennyBGL t ∧ 0 ≤ bennyBGL t)
    ∧ (∀ t : ℕ, t + 1 < 10000 → bennyBGL t ≤ 180 → bennyBGL (t + 1) = bennyBGL t)
    ∧ (∀ t : ℕ, t < 10000 → bennyBGL t = 180 + 190 * (9999/10000 : ℝ) ^ t) := by
  have key : ∀ t : ℕ, t < 10000 → bennyBGL t = 180 + 190 * (9999/10000 : ℝ) ^ t := by
    intro t ht
    rw [bennyBGL_eq ht, scenarioBGL_closed]
  refine ⟨?_, ?_, ?_, key⟩
  · intro t ht
    rw [key (t + 1) ht, key t (by omega)]
    have hp : (9999/10000 : ℝ) ^ (t + 1) ≤ (9999/10000 : ℝ) ^ t :=
      pow_le_pow_of_le_one (by norm_num) (by norm_num) (by omega)
    linarith
  · intro t ht
    rw [key t ht]
    have hp : (0 : ℝ) ≤ 190 * (9999/10000 : ℝ) ^ t := by positivity
    constructor <;> linarith
  · intro t ht hle
    rw [bennyBGL_eq ht, bennyBGL_eq (show t < 10000 by omega)]
    rw [bennyBGL_eq (show t < 10000 by omega)] at hle
    rw [show scenarioBGL (t + 1)
          = scenarioBGL t - 1/10000 * max 0 (scenarioBGL t - 180) from rfl]
    rw [max_eq_left (by linarith)]
    ring
/-- Witness for C10 at tick 0. -/
theorem C10_zero_dose_scenario_witness :
    bennyBGL 1 ≤ bennyBGL 0 ∧ 180 ≤ bennyBGL 0 ∧
      bennyBGL 0 = 180 + 190 * (9999/10000 : ℝ) ^ 0 :=
  ⟨C10_zero_dose_scenario.1 0 (by norm_num),
   (C10_zero_dose_scenario.2.1 0 (by norm_num)).1,
   C10_zero_dose_scenario.2.2.2 0 (by norm_num)⟩

/-! ### Welford streaming statistics versus the batch closed form (claim C5) -/

lemma Welford.update_skip {α : Type} [LinearOrderedField α] (w : Welford α) (v wt : α)
    (h : wt < 1/10000) : w.update v wt = w := by
  unfold Welford.update
  rw [if_pos h]

lemma wsum_nil {α : Type} [LinearOrderedField α] : wsum ([] : List (α × α)) = 0 := rfl

lemma wsum_cons {α : Type} [LinearOrderedField α] (p : α × α) (l : List (α × α)) :
    wsum (p :: l) = p.2 + wsum l := by
  simp [wsum]

lemma wsum_append_single {α : Type} [LinearOrderedField α] (l : List (α × α)) (p : α × α) :
    wsum (l ++ [p]) = wsum l + p.2 := by
  simp [wsum]

lemma wvsum_append_single {α : Type} [LinearOrderedField α] (l : List (α × α)) (p : α × α) :
    wvsum (l ++ [p]) = wvsum l + p.2 * p.1 := by
  simp [wvsum]

lemma wv2sum_append_single {α : Type} [LinearOrderedField α] (l : List (α × α)) (p : α × α) :
    wv2sum (l ++ [p]) = wv2sum l + p.2 * p.1 ^ 2 := by
  simp [wv2sum]

lemma wsum_nonneg {α : Type} [LinearOrderedField α] (l : List (α × α))
    (h : ∀ p ∈ l, 1/10000 ≤ p.2) : 0 ≤ wsum l := by
  induction l with
  | nil => exact le_refl 0
  | cons p l ih =>
      rw [wsum_cons]
      have h1 : (0 : α) < 1/10000 := by norm_num
      have h2 := h p (List.mem_cons_self p l)
      have h3 := ih (fun q hq => h q (List.mem_cons_of_mem p hq))
      linarith

lemma wsum_pos {α : Type} [LinearOrderedField α] (l : List (α × α))
    (h : ∀ p ∈ l, 1/10000 ≤ p.2) (hne : l ≠ []) : 0 < wsum l := by
  cases l with
  | nil => exact absurd rfl hne
  | cons p l =>
      rw [wsum_cons]
      have h1 : (0 : α) < 1/10000 := by norm_num
      have h2 := h p (List.mem_cons_self p l)
      have h3 := wsum_nonneg l (fun q hq => h q (List.mem_cons_of_mem p hq))
      linarith

lemma updates_closed_form {α : Type} [LinearOrderedField α] (l : List (α × α))
    (h : ∀ p ∈ l, 1/10000 ≤ p.2) :
    Welford.updates initWelford l =
      ⟨wsum l, wvsum l / wsum l, wv2sum l - wvsum l ^ 2 / wsum l⟩ := by
  induction l using List.reverseRecOn with
  | nil =>
      show (initWelford : Welford α) = _
      rw [wsum_nil]
      show (⟨0, 0, 0⟩ : Welford α) = _
      rw [Welford.mk.injEq]
      refine ⟨rfl, ?_, ?_⟩
      · rw [div_zero]
      · rw [div_zero]
        show (0 : α) = wv2sum ([] : List (α × α)) - 0
        rw [sub_zero]
        rfl
  | append_singleton l p ih =>
      have hl : ∀ q ∈ l, (1 : α)/10000 ≤ q.2 := fun q hq => h q (by simp [hq])
      have hp : (1 : α)/10000 ≤ p.2 := h p (by simp)
      have hp0 : (0 : α) < p.2 := lt_of_lt_of_le (by norm_num) hp
      have hupd : Welford.updates initWelford (l ++ [p])
          = (Welford.updates initWelford l).update p.1 p.2 := by
        unfold Welford.updates
        rw [List.foldl_append]
        rfl
      rw [hupd, ih hl]
      rw [Welford.update, if_neg (not_lt.mpr hp)]
      rw [wsum_append_single, wvsum_append_single, wv2sum_append_single]
      rcases eq_or_ne l [] with rfl | hne
      · rw [wsum_nil]
        rw [show wvsum ([] : List (α × α)) = 0 from rfl]
        rw [show wv2sum ([] : List (α × α)) = 0 from rfl]
        rw [Welford.mk.injEq]
        refine ⟨by ring, ?_, ?_⟩
        · field_simp
        · field_simp
          ring
      · have hW : 0 < wsum l := wsum_pos l hl hne
        have hW' : 0 < wsum l + p.2 := by linarith
        rw [Welford.mk.injEq]
        refine ⟨rfl, ?_, ?_⟩
        · field_simp
          ring
        · field_simp
          ring

lemma wsq_expand {α : Type} [LinearOrderedField α] (c : α) (l : List (α × α)) :
    (l.map (fun p => p.2 * (p.1 - c) ^ 2)).sum
      = wv2sum l - 2 * c * wvsum l + c ^ 2 * wsum l := by
  induction l with
  | nil => simp [wv2sum, wvsum, wsum]
  | cons p l ih =>
      rw [List.map_cons, List.sum_cons, ih, wsum_cons]
      rw [show wvsum (p :: l) = p.2 * p.1 + wvsum l by simp [wvsum]]
      rw [show wv2sum (p :: l) = p.2 * p.1 ^ 2 + wv2sum l by simp [wv2sum]]
      ring

/-- C5: over any linearly ordered field (so in particular over the exact
arithmetic modelling the floats), folding a finite sequence of
`(value, weight)` samples whose weights are all at least `1e-4` into a fresh
`Welford` accumulator yields exactly the closed-form batch statistics: `n`
is the total weight, `mean` the weighted mean, and `variance = M2/n`
(defined as `0` for `n = 0`) the weighted variance; and a single update with
weight strictly below `1e-4` leaves the accumulator exactly unchanged. -/
theorem C5_welford_refines_closed_form {α : Type} [LinearOrderedField α]
    (l : List (α × α)) (h : ∀ p ∈ l, 1/10000 ≤ p.2) :
    (Welford.updates initWelford l).n = wsum l
    ∧ (Welford.updates initWelford l).mean = weightedMean l
    ∧ (Welford.updates initWelford l).variance = weightedVariance l
    ∧ ∀ (w : Welford α) (v wt : α), wt < 1/10000 → w.update v wt = w := by
  rw [updates_closed_form l h]
  refine ⟨rfl, rfl, ?_, fun w v wt hwt => Welford.update_skip w v wt hwt⟩
  unfold Welford.variance weightedVariance weightedMean
  rcases eq_or_ne l [] with rfl | hne
  · rw [wsum_nil]
    rw [if_neg (lt_irrefl 0)]
    show (0 : α) = List.sum [] / 0
    rw [List.sum_nil, div_zero]
  · have hW : 0 < wsum l := wsum_pos l h hne
    rw [if_pos hW]
    rw [wsq_expand]
    field_simp
    ring

/-- Witness for C5 on a concrete rational sample list. -/
theorem C5_welford_refines_closed_form_witness :
    (∀ p ∈ [((3 : ℚ), (1 : ℚ)), ((5 : ℚ), (1 : ℚ))], (1 : ℚ)/10000 ≤ p.2)
    ∧ (Welford.updates initWelford [((3 : ℚ), (1 : ℚ)), ((5 : ℚ), (1 : ℚ))]).mean
        = weightedMean [((3 : ℚ), (1 : ℚ)), ((5 : ℚ), (1 : ℚ))] := by
  have hmem : ∀ p ∈ [((3 : ℚ), (1 : ℚ)), ((5 : ℚ), (1 : ℚ))], (1 : ℚ)/10000 ≤ p.2 := by
    intro p hp
    fin_cases hp <;> norm_num
  exact ⟨hmem, (C5_welford_refines_closed_form _ hmem).2.1⟩

/-! ### The UCB1 selection rule (claim C4) -/

lemma Welford.ucb1_of_zero (w : Welford ℝ) (c : ℝ) (h : w.n = 0) : w.ucb1 c = ⊤ := by
  unfold Welford.ucb1
  rw [if_pos h]

lemma Welford.ucb1_of_ne (w : Welford ℝ) (c : ℝ) (h : w.n ≠ 0) :
    w.ucb1 c = ((w.mean + c * Real.sqrt |Real.log w.n / w.n| : ℝ) : WithTop ℝ) := by
  unfold Welford.ucb1
  rw [if_neg h]

lemma Welford.ucb1_ne_top (w : Welford ℝ) (c : ℝ) (h : w.n ≠ 0) : w.ucb1 c ≠ ⊤ := by
  rw [w.ucb1_of_ne c h]
  exact WithTop.coe_ne_top

lemma argmaxFirst_cons {γ β : Type} [LinearOrder β] (s : γ → β) (b d : γ) (l : List γ) :
    argmaxFirst s b (d :: l) = argmaxFirst s (if s b < s d then d else b) l := rfl

lemma argmaxFirst_spec {γ β : Type} [LinearOrder β] (s : γ → β) (l : List γ) :
    ∀ b : γ,
      s b ≤ s (argmaxFirst s b l)
      ∧ (∀ y ∈ l, s y ≤ s (argmaxFirst s b l))
      ∧ (argmaxFirst s b l = b
          ∨ ∃ l₁ l₂, l = l₁ ++ argmaxFirst s b l :: l₂
              ∧ s b < s (argmaxFirst s b l)
              ∧ ∀ y ∈ l₁, s y < s (argmaxFirst s b l)) := by
  induction l with
  | nil =>
      intro b
      exact ⟨le_refl _, fun y hy => absurd hy (List.not_mem_nil y), Or.inl rfl⟩
  | cons d l ih =>
      intro b
      rw [argmaxFirst_cons]
      obtain ⟨ih1, ih2, ih3⟩ := ih (if s b < s d then d else b)
      by_cases hbd : s b < s d
      · rw [if_pos hbd] at ih1 ih2 ih3 ⊢
        refine ⟨le_trans (le_of_lt hbd) ih1, ?_, ?_⟩
        · intro y hy
          rcases List.mem_cons.mp hy with rfl | hy
          · exact ih1
          · exact ih2 y hy
        · rcases ih3 with heq | ⟨l₁, l₂, hl, hlt, hall⟩
          · right
            refine ⟨[], l, ?_, ?_, ?_⟩
            · rw [heq, List.nil_append]
            · rw [heq]; exact hbd
            · intro y hy; exact absurd hy (List.not_mem_nil y)
          · right
            refine ⟨d :: l₁, l₂, ?_, lt_trans hbd hlt, ?_⟩
            · rw [List.cons_append, ← hl]
            · intro y hy
              rcases List.mem_cons.mp hy with rfl | hy
              · exact hlt
              · exact hall y hy
      · rw [if_neg hbd] at ih1 ih2 ih3 ⊢
        refine ⟨ih1, ?_, ?_⟩
        · intro y hy
          rcases List.mem_cons.mp hy with rfl | hy
          · exact le_trans (not_lt.mp hbd) ih1
          · exact ih2 y hy
        · rcases ih3 with heq | ⟨l₁, l₂, hl, hlt, hall⟩
          · left; exact heq
          · right
            refine ⟨d :: l₁, l₂, ?_, hlt, ?_⟩
            · rw [List.cons_append, ← hl]
            · intro y hy
              rcases List.mem_cons.mp hy with rfl | hy
              · exact lt_of_le_of_lt (not_lt.mp hbd) hlt
              · exact hall y hy

lemma get_append_len {γ : Type} :
    ∀ (l₁ : List γ) (r : γ) (l₂ : List γ) (h : l₁.length < (l₁ ++ r :: l₂).length),
      (l₁ ++ r :: l₂).get ⟨l₁.length, h⟩ = r
  | [], _, _, _ => rfl
  | x :: l₁, r, l₂, _ => get_append_len l₁ r l₂ (by simp)

lemma get_append_lt {γ : Type} :
    ∀ (l₁ : List γ) (r : γ) (l₂ : List γ) (j : ℕ) (hjl : j < l₁.length)
      (h : j < (l₁ ++ r :: l₂).length),
      (l₁ ++ r :: l₂).get ⟨j, h⟩ ∈ l₁
  | [], _, _, j, hjl, _ => absurd hjl (Nat.not_lt_zero j)
  | x :: l₁, _, _, 0, _, _ => List.mem_cons_self x l₁
  | x :: l₁, r, l₂, j + 1, hjl, h =>
      List.mem_cons_of_mem x
        (get_append_lt l₁ r l₂ j (Nat.lt_of_succ_lt_succ hjl) (Nat.lt_of_succ_lt_succ h))

lemma doseVal_mem (j : Fin 6) : doseVal j ∈ DOSE_RANGE := List.get_mem _ _ _

lemma choose_dose_spec (row : ℝ → Welford ℝ) :
    ∃ i : Fin 6, choose_dose row = doseVal i
      ∧ (∀ j : Fin 6, (row (doseVal j)).ucb1 1 ≤ (row (doseVal i)).ucb1 1)
      ∧ (∀ j : Fin 6, j < i → (row (doseVal j)).ucb1 1 < (row (doseVal i)).ucb1 1) := by
  obtain ⟨h1, h2, h3⟩ := argmaxFirst_spec (fun d => (row d).ucb1 1) DOSE_RANGE (0 : ℝ)
  rcases h3 with heq | ⟨l₁, l₂, hl, hlt, hall⟩
  · refine ⟨⟨0, by norm_num⟩, ?_, ?_, ?_⟩
    · show argmaxFirst (fun d => (row d).ucb1 1) (0 : ℝ) DOSE_RANGE = doseVal ⟨0, by norm_num⟩
      rw [heq]
      rfl
    · intro j
      have hj := h2 (doseVal j) (doseVal_mem j)
      have hv : doseVal (⟨0, by norm_num⟩ : Fin 6) = (0 : ℝ) := rfl
      rw [hv]
      rw [← heq]
      exact hj
    · intro j hj
      exact absurd hj (Nat.not_lt_zero _)
  · have h6 : DOSE_RANGE.length = 6 := rfl
    have hlen : l₁.length + (l₂.length + 1) = 6 := by
      have := congrArg List.length hl
      rw [h6, List.length_append, List.length_cons] at this
      omega
    have hi6 : l₁.length < 6 := by omega
    refine ⟨⟨l₁.length, hi6⟩, ?_, ?_, ?_⟩
    · show argmaxFirst (fun d => (row d).ucb1 1) (0 : ℝ) DOSE_RANGE = doseVal ⟨l₁.length, hi6⟩
      have hget : doseVal ⟨l₁.length, hi6⟩
          = argmaxFirst (fun d => (row d).ucb1 1) (0 : ℝ) DOSE_RANGE := by
        unfold doseVal
        rw [List.get_of_eq hl]
        exact get_append_len l₁ _ l₂ _
      rw [hget]
    · intro j
      have hget : doseVal ⟨l₁.length, hi6⟩
          = argmaxFirst (fun d => (row d).ucb1 1) (0 : ℝ) DOSE_RANGE := by
        unfold doseVal
        rw [List.get_of_eq hl]
        exact get_append_len l₁ _ l₂ _
      rw [hget]
      exact h2 (doseVal j) (doseVal_mem j)
    · intro j hj
      have hget : doseVal ⟨l₁.length, hi6⟩
          = argmaxFirst (fun d => (row d).ucb1 1) (0 : ℝ) DOSE_RANGE := by
        unfold doseVal
        rw [List.get_of_eq hl]
        exact get_append_len l₁ _ l₂ _
      have hmem : doseVal j ∈ l₁ := by
        unfold doseVal
        rw [List.get_of_eq hl]
        exact get_append_lt l₁ _ l₂ j.1 hj _
      rw [hget]
      exact hall (doseVal j) hmem

/-- C4: the `ucb1` score of a zero-count arm is positive infinity (the top
element), the score of an arm with accumulated weight `n > 0` is
`mean + c * sqrt(|ln(n)/n|)` (and `choose_dose` uses the default `c = 1`),
and the selected dose is always some candidate `doseVal i` whose score is
greatest, with every earlier candidate scoring strictly less — so ties are
broken towards the first candidate of `DOSE_RANGE` and selection is a
deterministic function of the table row. -/
theorem C4_ucb_selection :
    (∀ (w : Welford ℝ) (c : ℝ), w.ucb1 c = ⊤ ↔ w.n = 0)
    ∧ (∀ (w : Welford ℝ) (c : ℝ), 0 < w.n →
        w.ucb1 c = ((w.mean + c * Real.sqrt |Real.log w.n / w.n| : ℝ) : WithTop ℝ))
    ∧ (∀ row : ℝ → Welford ℝ, ∃ i : Fin 6,
        choose_dose row = doseVal i
        ∧ (∀ j : Fin 6, (row (doseVal j)).ucb1 1 ≤ (row (doseVal i)).ucb1 1)
        ∧ (∀ j : Fin 6, j < i → (row (doseVal j)).ucb1 1 < (row (doseVal i)).ucb1 1)) := by
  refine ⟨?_, ?_, choose_dose_spec⟩
  · intro w c
    constructor
    · intro h
      by_contra hn
      exact Welford.ucb1_ne_top w c hn h
    · exact Welford.ucb1_of_zero w c
  · intro w c h
    exact Welford.ucb1_of_ne w c (ne_of_gt h)

/-- Witness for C4: the positive-count score formula evaluated at a concrete
arm. -/
theorem C4_ucb_selection_witness :
    (Welford.ucb1 ⟨1, 5, 0⟩ 1
        = (((5 : ℝ) + 1 * Real.sqrt |Real.log 1 / 1| : ℝ) : WithTop ℝ)) :=
  C4_ucb_selection.2.1 ⟨1, 5, 0⟩ 1 (by norm_num)

/-! ### The credit-attribution charge list (claim C2) -/

lemma chargeList_mem {α : Type} [LinearOrderedField α] {κ : ℕ → α} {st i d : ℕ} {w : α} :
    (d, w) ∈ chargeList κ st i ↔ st ∣ d ∧ d < i ∧ w = κ (i - d) ∧ 1/10000 < w := by
  unfold chargeList
  rw [List.mem_filterMap]
  constructor
  · rintro ⟨a, ha, hsome⟩
    rw [List.mem_filter, List.mem_range] at ha
    obtain ⟨har, hdvd⟩ := ha
    have hdvd2 : st ∣ a := of_decide_eq_true hdvd
    by_cases hc : (1 : α)/10000 < κ (i - a)
    · rw [if_pos hc, Option.some.injEq, Prod.mk.injEq] at hsome
      obtain ⟨rfl, hw⟩ := hsome
      exact ⟨hdvd2, har, hw.symm, hw ▸ hc⟩
    · rw [if_neg hc] at hsome
      exact absurd hsome (Option.noConfusion)
  · rintro ⟨h1, h2, rfl, h4⟩
    refine ⟨d, ?_, ?_⟩
    · rw [List.mem_filter, List.mem_range]
      exact ⟨h2, decide_eq_true h1⟩
    · rw [if_pos h4]

lemma Gamma_three : Real.Gamma 3 = 2 := by
  rw [show (3 : ℝ) = ((2 : ℕ) : ℝ) + 1 by norm_num, Real.Gamma_nat_eq_factorial]
  norm_num

lemma Gamma_five : Real.Gamma 5 = 24 := by
  rw [show (5 : ℝ) = ((4 : ℕ) : ℝ) + 1 by norm_num, Real.Gamma_nat_eq_factorial]
  norm_num [Nat.factorial]

lemma gammaPdf_a3 (x : ℝ) (hx : 0 ≤ x) :
    gammaPdf x 3 105 = x ^ 2 * Real.exp (-x / 105) / 2315250 := by
  unfold gammaPdf
  rw [if_neg (not_lt.mpr hx), Gamma_three]
  rw [show (3 : ℝ) - 1 = ((2 : ℕ) : ℝ) by norm_num, Real.rpow_natCast]
  rw [show ((105 : ℝ) ^ (3 : ℝ)) = 105 ^ (3 : ℕ) by
        rw [show (3 : ℝ) = ((3 : ℕ) : ℝ) by norm_num, Real.rpow_natCast]]
  norm_num

lemma gammaPdf_a5 (x : ℝ) (hx : 0 ≤ x) :
    gammaPdf x 5 120 = x ^ 4 * Real.exp (-x / 120) / 597196800000 := by
  unfold gammaPdf
  rw [if_neg (not_lt.mpr hx), Gamma_five]
  rw [show (5 : ℝ) - 1 = ((4 : ℕ) : ℝ) by norm_num, Real.rpow_natCast]
  rw [show ((120 : ℝ) ^ (5 : ℝ)) = 120 ^ (5 : ℕ) by
        rw [show (5 : ℝ) = ((5 : ℕ) : ℝ) by norm_num, Real.rpow_natCast]]
  norm_num

lemma gammaPdf_nonneg {x a θ : ℝ} (hθ : 0 ≤ θ ^ a) (hΓ : 0 ≤ Real.Gamma a) :
    0 ≤ gammaPdf x a θ := by
  unfold gammaPdf
  split_ifs with h
  · exact le_refl 0
  · have hx : 0 ≤ x := not_lt.mp h
    exact div_nonneg
      (mul_nonneg (Real.rpow_nonneg hx _) (le_of_lt (Real.exp_pos _)))
      (mul_nonneg hθ hΓ)

lemma gammaPdf_a5_nonneg (x : ℝ) : 0 ≤ gammaPdf x 5 120 :=
  gammaPdf_nonneg (Real.rpow_nonneg (by norm_num) _) (by rw [Gamma_five]; norm_num)

lemma gammaPdf_a3_nonneg (x : ℝ) : 0 ≤ gammaPdf x 3 105 :=
  gammaPdf_nonneg (Real.rpow_nonneg (by norm_num) _) (by rw [Gamma_three]; norm_num)

lemma insulin_kernel_30_gt : (1 : ℝ)/10000 < insulin_kernel 30 := by
  unfold insulin_kernel
  have h5 : 0 ≤ gammaPdf 30 5 120 := gammaPdf_a5_nonneg 30
  have h3 : gammaPdf 30 3 105 = 900 * Real.exp (-30 / 105) / 2315250 := by
    rw [gammaPdf_a3 30 (by norm_num)]
    norm_num
  have hexp : (5 : ℝ)/7 ≤ Real.exp (-30 / 105) := by
    calc (5 : ℝ)/7 = (-30 / 105 : ℝ) + 1 := by norm_num
    _ ≤ Real.exp (-30 / 105) := Real.add_one_le_exp _
  rw [h3]
  have hmain : (1 : ℝ)/10000 < 900 * Real.exp (-30 / 105) / 2315250 := by
    have h900 : 900 * (5/7 : ℝ) ≤ 900 * Real.exp (-30 / 105) := by linarith
    rw [div_eq_mul_inv]
    nlinarith [h900]
  linarith

lemma insulin_kernel_60_gt : (1 : ℝ)/10000 < insulin_kernel 60 := by
  unfold insulin_kernel
  have h5 : 0 ≤ gammaPdf 60 5 120 := gammaPdf_a5_nonneg 60
  have h3 : gammaPdf 60 3 105 = 3600 * Real.exp (-60 / 105) / 2315250 := by
    rw [gammaPdf_a3 60 (by norm_num)]
    norm_num
  have hexp : (3 : ℝ)/7 ≤ Real.exp (-60 / 105) := by
    calc (3 : ℝ)/7 = (-60 / 105 : ℝ) + 1 := by norm_num
    _ ≤ Real.exp (-60 / 105) := Real.add_one_le_exp _
  rw [h3]
  have hmain : (1 : ℝ)/10000 < 3600 * Real.exp (-60 / 105) / 2315250 := by
    have h3600 : 3600 * (3/7 : ℝ) ≤ 3600 * Real.exp (-60 / 105) := by linarith
    rw [div_eq_mul_inv]
    nlinarith [h3600]
  linarith

lemma exp_neg_le_one {y : ℝ} (hy : y ≤ 0) : Real.exp y ≤ 1 := by
  have h := Real.exp_le_exp.mpr hy
  rwa [Real.exp_zero] at h

lemma insulin_kernel_upper (x : ℝ) (hx : 0 ≤ x) :
    insulin_kernel x ≤ x ^ 2 / 2315250 + x ^ 4 / 597196800000 := by
  unfold insulin_kernel
  rw [gammaPdf_a3 x hx, gammaPdf_a5 x hx]
  have h1 : Real.exp (-x / 105) ≤ 1 := exp_neg_le_one (by linarith)
  have h2 : Real.exp (-x / 120) ≤ 1 := exp_neg_le_one (by linarith)
  have hx2 : (0 : ℝ) ≤ x ^ 2 := sq_nonneg x
  have hx4 : (0 : ℝ) ≤ x ^ 4 := by positivity
  have e1 : (0 : ℝ) < Real.exp (-x / 105) := Real.exp_pos _
  have e2 : (0 : ℝ) < Real.exp (-x / 120) := Real.exp_pos _
  have b1 : x ^ 2 * Real.exp (-x / 105) ≤ x ^ 2 := by nlinarith
  have b2 : x ^ 4 * Real.exp (-x / 120) ≤ x ^ 4 := by nlinarith
  have d1 : x ^ 2 * Real.exp (-x / 105) / 2315250 ≤ x ^ 2 / 2315250 := by linarith
  have d2 : x ^ 4 * Real.exp (-x / 120) / 597196800000 ≤ x ^ 4 / 597196800000 := by
    linarith
  linarith

lemma insulinKernelNat_30 : insulinKernelNat 30 = insulin_kernel 30 := by
  unfold insulinKernelNat
  norm_num

lemma insulinKernelNat_60 : insulinKernelNat 60 = insulin_kernel 60 := by
  unfold insulinKernelNat
  norm_num

lemma chargeList_30_60 :
    chargeList insulinKernelNat 30 60
      = [(0, insulinKernelNat 60), (30, insulinKernelNat 30)] := by
  unfold chargeList
  have hfil : (List.range 60).filter (fun d => decide (30 ∣ d)) = [0, 30] := by decide
  rw [hfil]
  have h60 : (1 : ℝ)/10000 < insulinKernelNat (60 - 0) := by
    rw [show 60 - 0 = 60 from rfl, insulinKernelNat_60]
    exact insulin_kernel_60_gt
  have h30 : (1 : ℝ)/10000 < insulinKernelNat (60 - 30) := by
    rw [show 60 - 30 = 30 from rfl, insulinKernelNat_30]
    exact insulin_kernel_30_gt
  simp only [List.filterMap_cons, List.filterMap_nil]
  rw [if_pos h60, if_pos h30]

lemma insulinKernelNat_sum_lt_one :
    insulinKernelNat 60 + insulinKernelNat 30 < 1 := by
  rw [insulinKernelNat_60, insulinKernelNat_30]
  have h60 := insulin_kernel_upper 60 (by norm_num)
  have h30 := insulin_kernel_upper 30 (by norm_num)
  norm_num at h60 h30
  linarith

/-- C2: the reward attributor of `Pump.adjust_table` charges, at evaluation
tick `i`, exactly the earlier dose ticks `d` (the multiples of the dose step
below `i`) whose unit insulin-kernel value at offset `i - d` exceeds the
threshold `1e-4`, each with weight equal to that kernel value (a dose at or
below the threshold receives no update); every charge of a tick carries the
same combined reward `-(level penalty + rate penalty)`; and the weights are
not normalized across overlapping doses — at tick 60 of a 30-minute-step
training run two arms are charged and their weights sum to less than 1. -/
theorem C2_attribution_charges :
    (∀ (κ : ℕ → ℝ) (st i d : ℕ) (w : ℝ),
        ((d, w) ∈ chargeList κ st i ↔ st ∣ d ∧ d < i ∧ w = κ (i - d) ∧ 1/10000 < w))
    ∧ (∀ (κ : ℕ → ℝ) (key : ℕ → StateKey) (G R : ℕ → ℝ) (st : ℕ) (s : TrainState) (i : ℕ),
        adjust_table κ key G R st s i
          = (chargeList κ st i).foldl
              (fun s2 dw => update_reward key s2 dw.1 dw.2
                 (-1 * bgl_penalty (G i) - bgl_rate_penalty (R i))) s)
    ∧ (chargeList insulinKernelNat 30 60).map Prod.snd
        = [insulinKernelNat 60, insulinKernelNat 30]
    ∧ ((chargeList insulinKernelNat 30 60).map Prod.snd).sum ≠ 1 := by
  refine ⟨fun κ st i d w => chargeList_mem, fun κ key G R st s i => rfl, ?_, ?_⟩
  · rw [chargeList_30_60]
    rfl
  · rw [chargeList_30_60]
    show insulinKernelNat 60 + (insulinKernelNat 30 + 0) ≠ 1
    have := insulinKernelNat_sum_lt_one
    intro hcontra
    rw [add_zero] at hcontra
    exact absurd hcontra (ne_of_lt this)

/-! ### Training-loop bookkeeping (claim C7) -/

